import Mathlib

/-!
Verification of the terminal-management core (target registry and command
router) of the voice-terminal repository.  The Python modules
`terminal_management/terminal_models.py`, `terminal_management/terminal_discovery.py`
and `terminal_management/command_router.py` are shallowly embedded: Python
dicts become insertion-ordered association lists, `time.time()` becomes an
explicit `now : Nat` argument, the AppleScript adapter becomes an explicit
environment of total functions, and the number of adapter calls made by an
operation is returned alongside its result so that cache/dispatch behaviour
is observable.
-/

/-- Substring test on character lists: does `pat` occur at the head of `s`?
Models Python `str.startswith`. -/
def startsWithL : List Char → List Char → Bool
  | [], _ => true
  | _ :: _, [] => false
  | p :: ps, c :: cs => p = c && startsWithL ps cs

/-- Does `pat` occur anywhere inside `s` (as a contiguous run)?
Models Python `pat in s` on strings. -/
def containsL (pat : List Char) : List Char → Bool
  | [] => pat.isEmpty
  | c :: cs => startsWithL pat (c :: cs) || containsL pat cs

/-- Python `pat in s` for strings. -/
def strContains (s pat : String) : Bool :=
  containsL pat.toList s.toList

/-- Python `s.startswith(pat)` for strings. -/
def startsWithStr (s pat : String) : Bool :=
  startsWithL pat.toList s.toList

/-- ASCII lowercasing of one character (the commands and names the code
compares are ASCII; Python `str.lower()` restricted to that range). -/
def charLower (c : Char) : Char :=
  if 65 ≤ c.toNat ∧ c.toNat ≤ 90 then Char.ofNat (c.toNat + 32) else c

/-- Python `s.lower()` (ASCII range). -/
def strLower (s : String) : String :=
  String.mk (s.toList.map charLower)

/-- Python `s.strip()`: drop whitespace from both ends. -/
def strTrim (s : String) : String :=
  String.mk
    (((s.toList.dropWhile Char.isWhitespace).reverse.dropWhile
      Char.isWhitespace).reverse)

/-- Python slicing `s[:n]`. -/
def strTake (s : String) (n : Nat) : String :=
  String.mk (s.toList.take n)

/-- Lookup in an insertion-ordered association list; models Python
`dict.get(k)` (keys are unique in every dict the code builds). -/
def dictGet {α : Type} (d : List (String × α)) (k : String) : Option α :=
  match d with
  | [] => none
  | (k', v) :: rest => if k' = k then some v else dictGet rest k

/-- Models Python `d[k] = v`: update in place if the key exists (keeping its
position), otherwise append at the end, as Python dicts preserve insertion
order. -/
def dictInsert {α : Type} (d : List (String × α)) (k : String) (v : α) :
    List (String × α) :=
  match d with
  | [] => [(k, v)]
  | (k', v') :: rest =>
    if k' = k then (k, v) :: rest else (k', v') :: dictInsert rest k v

/-- Models Python `del d[k]` (removes the binding of `k`; keys are unique). -/
def dictErase {α : Type} (d : List (String × α)) (k : String) :
    List (String × α) :=
  match d with
  | [] => []
  | (k', v') :: rest =>
    if k' = k then rest else (k', v') :: dictErase rest k

/-- Models a Python dict comprehension `{f(x).1 : f(x).2 for x in xs}`:
left-to-right insertion with later duplicates overwriting. -/
def dictOfList {α : Type} (xs : List (String × α)) : List (String × α) :=
  xs.foldl (fun d p => dictInsert d p.1 p.2) []

/-- `TerminalApp` enumeration from `terminal_models.py`. -/
inductive TerminalApp where
  | TERMINAL
  | ITERM2
  | VSCODE
  | WARP
  | ALACRITTY
  | KITTY
  | HYPER
  | UNKNOWN
deriving DecidableEq, Repr

/-- Rendering of a `TerminalApp` value inside a Python f-string
(`f"{app_type}"` prints the qualified enum member name). -/
def TerminalApp.render : TerminalApp → String
  | .TERMINAL => "TerminalApp.TERMINAL"
  | .ITERM2 => "TerminalApp.ITERM2"
  | .VSCODE => "TerminalApp.VSCODE"
  | .WARP => "TerminalApp.WARP"
  | .ALACRITTY => "TerminalApp.ALACRITTY"
  | .KITTY => "TerminalApp.KITTY"
  | .HYPER => "TerminalApp.HYPER"
  | .UNKNOWN => "TerminalApp.UNKNOWN"

/-- `TerminalStatus` enumeration from `terminal_models.py`. -/
inductive TerminalStatus where
  | AVAILABLE
  | BUSY
  | DISCONNECTED
  | UNKNOWN
deriving DecidableEq, Repr

/-- The `session_info` dict of a `TerminalWindow`, modelled at the keys the
code actually reads: `"session_id"`, `"window_number"`, `"is_remote"`. -/
structure SessionData where
  session_id : Option String := none
  window_number : Option Nat := none
  is_remote : Bool := false
deriving DecidableEq, Repr

/-- `TerminalWindow` dataclass from `terminal_models.py`. -/
structure TerminalWindow where
  id : String
  app_name : String
  app_type : TerminalApp
  window_title : String
  working_directory : Option String := none
  process_name : Option String := none
  user_alias : Option String := none
  is_active : Bool := false
  session_info : SessionData := {}
  window_number : Option Nat := none
deriving DecidableEq, Repr

/-- `TerminalWindow.display_name` property.  Python truthiness is kept:
an empty alias string and a zero window number are falsy. -/
def display_name (w : TerminalWindow) : String :=
  match w.user_alias with
  | some a =>
    if a = "" then
      match w.window_number with
      | some n =>
        if n = 0 then w.app_name ++ " - " ++ strTake w.window_title 30
        else w.app_name ++ " " ++ toString n
      | none => w.app_name ++ " - " ++ strTake w.window_title 30
    else a
  | none =>
    match w.window_number with
    | some n =>
      if n = 0 then w.app_name ++ " - " ++ strTake w.window_title 30
      else w.app_name ++ " " ++ toString n
    | none => w.app_name ++ " - " ++ strTake w.window_title 30

/-- `TerminalWindow.is_remote` property: a falsy (absent or empty) process
name short-circuits to `false`; otherwise the process name containing
`"ssh"` or the session-info `is_remote` flag marks the session remote. -/
def is_remote (w : TerminalWindow) : Bool :=
  match w.process_name with
  | none => false
  | some p =>
    if p = "" then false
    else strContains (strLower p) "ssh" || w.session_info.is_remote

/-- `TerminalInfo` dataclass from `terminal_models.py` (the metadata fields
are carried but never read by the routing code; the float-typed
`response_time`, unused everywhere, is modelled as a `Nat`). -/
structure TerminalInfo where
  window : TerminalWindow
  status : TerminalStatus := .AVAILABLE
  last_command : Option String := none
  command_history : List String := []
  response_time : Option Nat := none
  last_activity : Option String := none
deriving DecidableEq, Repr

/-- `TerminalTarget` from `terminal_models.py`: either the local sentinel or
a reference to a terminal window. -/
structure TerminalTarget where
  identifier : String
  terminal_window : Option TerminalWindow := none
deriving DecidableEq, Repr

/-- The `is_local` flag computed in `TerminalTarget.__init__`. -/
def TerminalTarget.is_local (t : TerminalTarget) : Bool :=
  strLower t.identifier = "local" || strLower t.identifier = "current" ||
    strLower t.identifier = "here"

/-- The local sentinel `TerminalTarget("local")`. -/
def localTarget : TerminalTarget := { identifier := "local" }

/-- Results the AppleScript bridge would report during one discovery pass:
the window/session lists of each backend and whether VS Code is running.
One field read corresponds to one adapter call. -/
structure Adapters where
  terminal_windows : List TerminalWindow := []
  iterm2_sessions : List TerminalWindow := []
  warp_windows : List TerminalWindow := []
  vscode_running : Bool := false

/-- State of `TerminalDiscovery` (`terminal_discovery.py`). -/
structure TerminalDiscovery where
  cached_terminals : List (String × TerminalInfo) := []
  user_aliases : List (String × String) := []
  last_discovery : Nat := 0
  discovery_interval : Nat := 5

/-- `TerminalDiscovery.__init__`. -/
def initDiscovery : TerminalDiscovery := {}

/-- The alias re-application loop run on each discovered window: if some
user alias maps to this window's id, the first such alias is installed on
the window. -/
def applyAlias (aliases : List (String × String)) (w : TerminalWindow) :
    TerminalWindow :=
  match aliases.find? (fun p => p.2 = w.id) with
  | some p => { w with user_alias := some p.1 }
  | none => w

/-- Wrap a discovered window as `TerminalInfo` with status AVAILABLE, as the
discovery loops do. -/
def mkInfo (w : TerminalWindow) : TerminalInfo :=
  { window := w }

/-- The synthetic VS Code integrated-terminal window built by discovery when
VS Code is running.  Note the source looks the literal key
`"VSCode:integrated"` up in the alias table (i.e. treats it as an alias
name, not an id) when filling `user_alias`. -/
def vscodeWindow (aliases : List (String × String)) : TerminalWindow :=
  { id := "VSCode:integrated"
    app_name := "Visual Studio Code"
    app_type := .VSCODE
    window_title := "Integrated Terminal"
    user_alias := dictGet aliases "VSCode:integrated" }

/-- `TerminalDiscovery.get_available_terminals`.  Returns the result list,
the updated state, and the number of adapter calls issued (0 on a cache
hit; 4 on a refresh: Terminal.app, iTerm2, Warp, and the VS Code
running-check). -/
def get_available_terminals (d : TerminalDiscovery) (a : Adapters)
    (now : Nat) (force_refresh : Bool) :
    List TerminalInfo × TerminalDiscovery × Nat :=
  if force_refresh = false ∧ now - d.last_discovery < d.discovery_interval then
    (d.cached_terminals.map Prod.snd, d, 0)
  else
    let t1 := a.terminal_windows.map (fun w => mkInfo (applyAlias d.user_aliases w))
    let t2 := a.iterm2_sessions.map (fun w => mkInfo (applyAlias d.user_aliases w))
    let t3 := a.warp_windows.map (fun w => mkInfo (applyAlias d.user_aliases w))
    let t4 := if a.vscode_running then [mkInfo (vscodeWindow d.user_aliases)] else []
    let terminals := t1 ++ t2 ++ t3 ++ t4
    let cache := dictOfList (terminals.map (fun i => (i.window.id, i)))
    (terminals, { d with cached_terminals := cache, last_discovery := now }, 4)

/-- The fuzzy-matching predicate of `get_terminal_by_name` (the body of its
third resolution step): query contained in the display name, or in the app
name, or the display name starting with the query. -/
def fuzzyPred (name : String) (t : TerminalInfo) : Bool :=
  strContains (strLower (display_name t.window)) (strLower name) ||
  strContains (strLower t.window.app_name) (strLower name) ||
  startsWithStr (strLower (display_name t.window)) (strLower name)

/-- Last character of a string as a digit value, when it is a digit; models
the `name[-1].isdigit()` / `int(name[-1])` pair. -/
def lastCharDigit (s : String) : Option Nat :=
  match s.toList.getLast? with
  | some c => if c.isDigit then some (c.toNat - 48) else none
  | none => none

/-- `TerminalDiscovery.get_terminal_by_name`: exact alias, exact id, fuzzy
first match (query contained in display name or app name, or display name
starting with the query), the "terminal N" ordinal rule, then the
backend-kind synonym special cases. -/
def get_terminal_by_name (d : TerminalDiscovery) (a : Adapters) (now : Nat)
    (name : String) : Option TerminalInfo × TerminalDiscovery :=
  let res := get_available_terminals d a now false
  let terminals := res.1
  let d1 := res.2.1
  match dictGet d1.user_aliases (strLower name) with
  | some terminal_id => (dictGet d1.cached_terminals terminal_id, d1)
  | none =>
  match terminals.find? (fun t => strLower t.window.id = strLower name) with
  | some t => (some t, d1)
  | none =>
  match terminals.find? (fuzzyPred name) with
  | some t => (some t, d1)
  | none =>
  match (if startsWithStr (strLower name) "terminal" then
           match lastCharDigit name with
           | some n => terminals.find? (fun t =>
               t.window.app_type = TerminalApp.TERMINAL &&
               t.window.window_number = some n)
           | none => none
         else none) with
  | some t => (some t, d1)
  | none =>
  if strLower name = "vscode" ∨ strLower name = "vs code" ∨ strLower name = "code" then
    (terminals.find? (fun t => t.window.app_type = TerminalApp.VSCODE), d1)
  else if strLower name = "iterm" ∨ strLower name = "iterm2" then
    (terminals.find? (fun t => t.window.app_type = TerminalApp.ITERM2), d1)
  else if strLower name = "warp" then
    (terminals.find? (fun t => t.window.app_type = TerminalApp.WARP), d1)
  else (none, d1)

/-- The "remove old alias if it exists" loop of
`TerminalDiscovery.set_terminal_alias`: delete the first alias entry mapped
to `terminal_id`, if any. -/
def evictAliasOf (m : List (String × String)) (terminal_id : String) :
    List (String × String) :=
  match m.find? (fun p => p.2 = terminal_id) with
  | some p => dictErase m p.1
  | none => m

/-- `TerminalDiscovery.set_terminal_alias`: fails when the id is unknown;
otherwise evicts the id's previous alias via `evictAliasOf`, installs the
lowercased new alias, and mirrors it onto the cached window. -/
def set_terminal_alias (d : TerminalDiscovery) (a : Adapters) (now : Nat)
    (terminal_id al : String) : Bool × TerminalDiscovery :=
  let res := get_available_terminals d a now false
  let terminals := res.1
  let d1 := res.2.1
  if terminals.any (fun t => t.window.id = terminal_id) then
    let aliases2 := dictInsert (evictAliasOf d1.user_aliases terminal_id)
      (strLower al) terminal_id
    let cache2 :=
      match dictGet d1.cached_terminals terminal_id with
      | some info =>
        dictInsert d1.cached_terminals terminal_id
          { info with window := { info.window with user_alias := some al } }
      | none => d1.cached_terminals
    (true, { d1 with user_aliases := aliases2, cached_terminals := cache2 })
  else
    (false, d1)

/-- State of `CommandRouter` (`command_router.py`): the discovery service it
owns, the current target id (defaulting to `"local"`), and the per-terminal
command history dict. -/
structure CommandRouter where
  discovery : TerminalDiscovery := initDiscovery
  current_target : String := "local"
  command_history : List (String × List String) := []

/-- `CommandRouter.__init__`. -/
def initRouter : CommandRouter := {}

/-- The adapter send operations `route_command` can invoke, as total
functions (`applescript_bridge.py` is outside the core; only the success
flag each call returns is relevant to routing). -/
structure SendEnv where
  terminal_send : Nat → String → Bool := fun _ _ => false
  iterm2_send : String → String → Bool := fun _ _ => false
  vscode_send : String → Bool := fun _ => false
  warp_ui : String → Nat → Bool := fun _ _ => false
  warp_launch : String → String → Bool := fun _ _ => false

/-- `CommandRouter.set_target`. -/
def set_target (r : CommandRouter) (a : Adapters) (now : Nat)
    (target_name : String) : Bool × CommandRouter :=
  if strLower target_name = "local" ∨ strLower target_name = "current" ∨
      strLower target_name = "here" then
    (true, { r with current_target := "local" })
  else
    let res := get_terminal_by_name r.discovery a now target_name
    match res.1 with
    | some t => (true, { r with discovery := res.2, current_target := t.window.id })
    | none => (false, { r with discovery := res.2 })

/-- `CommandRouter.get_current_target`: the stored id `"local"` yields the
local sentinel; otherwise the id is looked up in the live terminal list and
a vanished id silently resets the router to local. -/
def get_current_target (r : CommandRouter) (a : Adapters) (now : Nat) :
    TerminalTarget × CommandRouter :=
  if r.current_target = "local" then
    (localTarget, r)
  else
    let res := get_available_terminals r.discovery a now false
    let terminals := res.1
    let d1 := res.2.1
    match terminals.find? (fun t => t.window.id = r.current_target) with
    | some t =>
      ({ identifier := r.current_target, terminal_window := some t.window },
       { r with discovery := d1 })
    | none =>
      (localTarget, { r with discovery := d1, current_target := "local" })

/-- `CommandRouter._add_to_history`, acting on the `command_history` field:
append, then keep only the last 50 entries. -/
def add_to_history (h : List (String × List String)) (terminal_id command : String) :
    List (String × List String) :=
  let cur := (dictGet h terminal_id).getD []
  let appended := cur ++ [command]
  let trimmed :=
    if appended.length > 50 then appended.drop (appended.length - 50) else appended
  dictInsert h terminal_id trimmed

/-- `CommandRouter.get_command_history`, acting on the `command_history`
field.  The source returns `.copy()` of the stored list; in this value
semantics the defensive copy is the returned value itself. -/
def get_command_history (h : List (String × List String)) (terminal_id : String) :
    List String :=
  (dictGet h terminal_id).getD []

/-- The per-backend dispatch arms of `CommandRouter.route_command`
(`_send_to_terminal_app` / `_send_to_iterm2` / `_send_to_vscode` /
`_send_to_warp`) followed by the shared success/failure epilogue.  Returns
the `(ok, message)` pair, the updated router, and how many adapter send
calls were made.  Python truthiness of the iTerm2 session id is kept (an
empty id fails without an adapter call). -/
def dispatchTo (r : CommandRouter) (env : SendEnv) (command : String)
    (w : TerminalWindow) : (Bool × String) × CommandRouter × Nat :=
  let finish : Bool → Nat → (Bool × String) × CommandRouter × Nat := fun ok calls =>
    if ok then
      ((true, "Command sent to " ++ display_name w),
       { r with command_history := add_to_history r.command_history w.id command },
       calls)
    else
      ((false, "Failed to send command to " ++ display_name w), r, calls)
  match w.app_type with
  | TerminalApp.TERMINAL =>
    match w.window_number with
    | none => finish false 0
    | some n => finish (env.terminal_send n command) 1
  | TerminalApp.ITERM2 =>
    match w.session_info.session_id with
    | none => finish false 0
    | some sid =>
      if sid = "" then finish false 0
      else finish (env.iterm2_send sid command) 1
  | TerminalApp.VSCODE => finish (env.vscode_send command) 1
  | TerminalApp.WARP =>
    let n := w.session_info.window_number.getD 1
    if env.warp_ui command n then finish true 1
    else finish (env.warp_launch command w.id) 2
  | other => ((false, "Unsupported terminal type: " ++ other.render), r, 0)

/-- `CommandRouter.route_command`: resolve the explicit target name if one
is given (failing with a not-found message), otherwise use the current
target — the local current target yields the distinguished
"Use local execution" result without any dispatch; an external window is
dispatched per its backend kind, with the command appended to that window's
history on success. -/
def route_command (r : CommandRouter) (a : Adapters) (env : SendEnv)
    (now : Nat) (command : String) (target : Option String) :
    (Bool × String) × CommandRouter × Nat :=
  match target with
  | some tname =>
    let res := get_terminal_by_name r.discovery a now tname
    match res.1 with
    | none =>
      ((false, "Terminal \x27" ++ tname ++ "\x27 not found"),
       { r with discovery := res.2 }, 0)
    | some t => dispatchTo { r with discovery := res.2 } env command t.window
  | none =>
    let res := get_current_target r a now
    let tgt := res.1
    let r1 := res.2
    if tgt.is_local then
      ((false, "Use local execution"), r1, 0)
    else
      match tgt.terminal_window with
      | none => ((false, "No valid target terminal"), r1, 0)
      | some w => dispatchTo r1 env command w

/-- The static synonym table inside
`CommandRouter.parse_contextual_command`. -/
def target_aliases : List (String × String) :=
  [("vs code", "VSCode:integrated"),
   ("vscode", "VSCode:integrated"),
   ("code", "VSCode:integrated"),
   ("terminal one", "Terminal:1"),
   ("terminal 1", "Terminal:1"),
   ("terminal two", "Terminal:2"),
   ("terminal 2", "Terminal:2"),
   ("iterm", "iTerm2"),
   ("main session", "iTerm2"),
   ("warp", "Warp:1"),
   ("warp 1", "Warp:1"),
   ("warp 2", "Warp:2"),
   ("warp tab", "Warp:1"),
   ("test tab", "Warp:1"),
   ("test", "Warp:1")]

/-- Split a character list at its first comma, when there is one; models
Python `s.split(",", 1)` producing two parts. -/
def splitAtComma : List Char → Option (List Char × List Char)
  | [] => none
  | c :: cs =>
    if c = ',' then some ([], cs)
    else
      match splitAtComma cs with
      | some (a, b) => some (c :: a, b)
      | none => none

/-- From the lowercased stripped query, extract the target phrase (dropping
the three characters of `"in "`/`"on "` and stripping) and the command
phrase after the first comma. -/
def splitTargetCmd (ql : String) : Option (String × String) :=
  match splitAtComma ql.toList with
  | some (a, b) => some (strTrim (String.mk (a.drop 3)), strTrim (String.mk b))
  | none => none

/-- `CommandRouter.parse_contextual_command`: the query is lowercased and
stripped; a leading `"in "` with a comma resolves the target phrase against
known targets and then the static synonym table; a leading `"on "` with a
comma resolves only against known targets; anything else returns
`(None, query)` with the original query text. -/
def parse_contextual_command (r : CommandRouter) (a : Adapters) (now : Nat)
    (query : String) : (Option String × String) × CommandRouter :=
  let ql := strTrim (strLower query)
  if startsWithStr ql "in " then
    match splitTargetCmd ql with
    | some (target_part, command_part) =>
      let g := get_terminal_by_name r.discovery a now target_part
      match g.1 with
      | some t => ((some t.window.id, command_part), { r with discovery := g.2 })
      | none =>
        match dictGet target_aliases target_part with
        | some tid => ((some tid, command_part), { r with discovery := g.2 })
        | none => ((none, query), { r with discovery := g.2 })
    | none => ((none, query), r)
  else if startsWithStr ql "on " then
    match splitTargetCmd ql with
    | some (target_part, command_part) =>
      let g := get_terminal_by_name r.discovery a now target_part
      match g.1 with
      | some t => ((some t.window.id, command_part), { r with discovery := g.2 })
      | none => ((none, query), { r with discovery := g.2 })
    | none => ((none, query), r)
  else ((none, query), r)

/-- The fixed denylist of `CommandRouter.validate_command`. -/
def dangerous_patterns : List String :=
  ["rm -rf /", "sudo rm -rf", "format", "mkfs", "> /dev/sda", "dd if=",
   "chmod -R 777 /"]

/-- The looser denylist applied to remote sessions in
`CommandRouter.validate_command`. -/
def remote_warning_patterns : List String :=
  ["rm -rf", "sudo", "chmod -R", "chown -R"]

/-- `CommandRouter.validate_command`: reject when the lowercased command
contains a fixed-denylist substring; on remote targets additionally reject
on the looser denylist. -/
def validate_command (command : String) (terminal : TerminalWindow) :
    Bool × String :=
  match dangerous_patterns.find? (fun p => strContains (strLower command) p) with
  | some p => (false, "Dangerous command detected: " ++ p)
  | none =>
    if is_remote terminal then
      match remote_warning_patterns.find? (fun p => strContains (strLower command) p) with
      | some p => (false, "Potentially dangerous command on remote session: " ++ p)
      | none => (true, "")
    else (true, "")

/-- Modelled from the spec (claim C4, §4.2 resolution step 3): a scored
fuzzy match on display names — exact equality 100, alias containing the
query 90, display name starting with the query 80, display name containing
it 60 — computed over all candidates, highest score winning, ties broken by
first-discovered order.  This definition follows the spec's words and is
compared against `get_terminal_by_name` from the source. -/
def specScore (ql : String) (w : TerminalWindow) : Nat :=
  let dn := strLower (display_name w)
  if dn = ql then 100
  else if (match w.user_alias with
           | some al => strContains (strLower al) ql
           | none => false) then 90
  else if startsWithStr dn ql then 80
  else if strContains dn ql then 60
  else 0

/-- Modelled from the spec (claim C4): pick the highest-scoring candidate
under `specScore`, first-discovered winning ties. -/
def specScoredFuzzy (ts : List TerminalInfo) (q : String) : Option TerminalInfo :=
  let ql := strLower q
  (ts.foldl (fun best t =>
      let s := specScore ql t.window
      if s = 0 then best
      else
        match best with
        | none => some (t, s)
        | some (b, bs) => if bs < s then some (t, s) else some (b, bs)) none).map
    Prod.fst

/-- Alias tables map alias names to target ids injectively: no two alias
names resolve to the same id. -/
def aliasInj (m : List (String × String)) : Prop :=
  ∀ k1 k2 v, dictGet m k1 = some v → dictGet m k2 = some v → k1 = k2

/-- Keys of an association list are pairwise distinct (always true of the
lists modelling Python dicts). -/
def keysNodup {α : Type} (d : List (String × α)) : Prop :=
  (d.map Prod.fst).Nodup

/-- Empty adapter environment: no backend reports any window. -/
def a0 : Adapters := {}

/-- Send environment whose iTerm2 dispatch always succeeds. -/
def envOk : SendEnv := { iterm2_send := fun _ _ => true }

/-- A remote sample window: an iTerm2 session whose shell process is ssh. -/
def remoteSample : TerminalWindow :=
  { id := "iTerm2:abc"
    app_name := "iTerm2"
    app_type := .ITERM2
    window_title := "server"
    process_name := some "ssh"
    session_info := { session_id := some "abc" } }

/-- A local sample window: a Terminal.app window running zsh. -/
def localSample : TerminalWindow :=
  { id := "Terminal:1"
    app_name := "Terminal"
    app_type := .TERMINAL
    window_title := "shell"
    process_name := some "zsh"
    window_number := some 1 }

/-- First window of the C4 counterexample: its display name
"my beta - runner - t" merely contains the query "beta - run". -/
def wContain : TerminalWindow :=
  { id := "A:1"
    app_name := "my beta - runner"
    app_type := .TERMINAL
    window_title := "t" }

/-- Second window of the C4 counterexample: its display name "Beta - run"
equals the query exactly (after lowercasing). -/
def wExact : TerminalWindow :=
  { id := "B:1"
    app_name := "Beta"
    app_type := .TERMINAL
    window_title := "run" }

/-- Discovery state for the C4 counterexample: the merely-containing window
is discovered first, the exactly-matching one second; no aliases; cache
fresh. -/
def dFuzzy : TerminalDiscovery :=
  { cached_terminals := [("A:1", mkInfo wContain), ("B:1", mkInfo wExact)] }

/-- The aliased window of the C4 resolution-precedence scenario (alias "a",
id "B:1"). -/
def wAliased : TerminalWindow :=
  { id := "B:1"
    app_name := "Beta"
    app_type := .TERMINAL
    window_title := "beta shell"
    user_alias := some "a" }

/-- A window whose title "a thing" contains the query "a". -/
def wAThing : TerminalWindow :=
  { id := "C:1"
    app_name := "Gamma"
    app_type := .TERMINAL
    window_title := "a thing" }

/-- Discovery state of the C4 precedence scenario: the substring-titled
window is discovered first, alias "a" points at "B:1"; cache fresh. -/
def dPrec : TerminalDiscovery :=
  { cached_terminals := [("C:1", mkInfo wAThing), ("B:1", mkInfo wAliased)]
    user_aliases := [("a", "B:1")] }

/-- Router with a stale current target id and an empty, fresh registry. -/
def rStale : CommandRouter := { current_target := "Warp:9" }

/-- First of the two plain cached windows. -/
def wOne : TerminalWindow :=
  { id := "A:1", app_name := "Terminal", app_type := .TERMINAL,
    window_title := "one" }

/-- Second of the two plain cached windows. -/
def wTwo : TerminalWindow :=
  { id := "B:1", app_name := "Terminal", app_type := .TERMINAL,
    window_title := "two" }

/-- Discovery state with two fresh cached targets "A:1" and "B:1" used by
the alias-uniqueness and id-resolution witnesses. -/
def dTwo : TerminalDiscovery :=
  { cached_terminals := [("A:1", mkInfo wOne), ("B:1", mkInfo wTwo)] }

/-- Router owning the precedence-scenario registry `dPrec`. -/
def rPrec : CommandRouter := { discovery := dPrec }

theorem dictGet_insert_self {α : Type} (d : List (String × α)) (k : String) (v : α) :
    dictGet (dictInsert d k v) k = some v := by
  induction d with
  | nil => simp [dictInsert, dictGet]
  | cons p rest ih =>
    obtain ⟨k', v'⟩ := p
    by_cases h : k' = k
    · simp [dictInsert, dictGet, h]
    · simp [dictInsert, dictGet, h, ih]

theorem dictGet_insert_ne {α : Type} (d : List (String × α)) (k k' : String) (v : α)
    (h : k' ≠ k) : dictGet (dictInsert d k v) k' = dictGet d k' := by
  have hk : k ≠ k' := Ne.symm h
  induction d with
  | nil => simp [dictInsert, dictGet, hk]
  | cons p rest ih =>
    obtain ⟨k1, v1⟩ := p
    by_cases h1 : k1 = k
    · subst h1
      simp [dictInsert, dictGet, hk]
    · simp only [dictInsert, if_neg h1, dictGet]
      rw [ih]

theorem dictGet_erase_ne {α : Type} (d : List (String × α)) (k k' : String)
    (h : k' ≠ k) : dictGet (dictErase d k) k' = dictGet d k' := by
  have hk : k ≠ k' := Ne.symm h
  induction d with
  | nil => simp [dictErase]
  | cons p rest ih =>
    obtain ⟨k1, v1⟩ := p
    by_cases h1 : k1 = k
    · subst h1
      simp [dictErase, dictGet, hk]
    · simp only [dictErase, if_neg h1, dictGet]
      rw [ih]

theorem dictGet_eq_none_of_not_mem {α : Type} (d : List (String × α)) (k : String)
    (h : k ∉ d.map Prod.fst) : dictGet d k = none := by
  induction d with
  | nil => simp [dictGet]
  | cons p rest ih =>
    obtain ⟨k1, v1⟩ := p
    simp only [List.map_cons, List.mem_cons] at h
    push_neg at h
    rw [dictGet, if_neg (Ne.symm h.1)]
    exact ih h.2

theorem dictGet_erase_self {α : Type} (d : List (String × α)) (k : String)
    (h : keysNodup d) : dictGet (dictErase d k) k = none := by
  induction d with
  | nil => simp [dictErase, dictGet]
  | cons p rest ih =>
    obtain ⟨k1, v1⟩ := p
    simp only [keysNodup, List.map_cons, List.nodup_cons] at h
    by_cases h1 : k1 = k
    · rw [dictErase, if_pos h1]
      exact dictGet_eq_none_of_not_mem rest k (h1 ▸ h.1)
    · rw [dictErase, if_neg h1, dictGet, if_neg h1]
      exact ih h.2

theorem dictGet_mem {α : Type} (d : List (String × α)) (k : String) (v : α)
    (h : dictGet d k = some v) : (k, v) ∈ d := by
  induction d with
  | nil => simp [dictGet] at h
  | cons p rest ih =>
    obtain ⟨k1, v1⟩ := p
    rw [dictGet] at h
    by_cases h1 : k1 = k
    · rw [if_pos h1] at h
      injection h with h2
      subst h1
      subst h2
      exact List.mem_cons_self _ _
    · rw [if_neg h1] at h
      exact List.mem_cons_of_mem _ (ih h)

theorem mem_dictGet {α : Type} (d : List (String × α)) (k : String) (v : α)
    (hn : keysNodup d) (h : (k, v) ∈ d) : dictGet d k = some v := by
  induction d with
  | nil => simp at h
  | cons p rest ih =>
    obtain ⟨k1, v1⟩ := p
    simp only [keysNodup, List.map_cons, List.nodup_cons] at hn
    rcases List.mem_cons.mp h with h' | h'
    · obtain ⟨hk, hv⟩ := Prod.mk.injEq .. ▸ h'
      rw [dictGet, if_pos hk.symm, hv]
    · have hk1 : k1 ≠ k := by
        intro he
        subst he
        exact hn.1 (List.mem_map_of_mem Prod.fst h')
      rw [dictGet, if_neg hk1]
      exact ih hn.2 h'

theorem mem_keys_insert {α : Type} (d : List (String × α)) (k k' : String) (v : α) :
    k' ∈ (dictInsert d k v).map Prod.fst ↔ k' ∈ d.map Prod.fst ∨ k' = k := by
  induction d with
  | nil => simp [dictInsert]
  | cons p rest ih =>
    obtain ⟨k1, v1⟩ := p
    by_cases h1 : k1 = k
    · subst h1
      have e : dictInsert ((k1, v1) :: rest) k1 v = (k1, v) :: rest := by
        simp [dictInsert]
      rw [e]
      simp only [List.map_cons, List.mem_cons]
      tauto
    · simp only [dictInsert, if_neg h1, List.map_cons, List.mem_cons, ih]
      tauto

theorem keysNodup_insert {α : Type} (d : List (String × α)) (k : String) (v : α)
    (h : keysNodup d) : keysNodup (dictInsert d k v) := by
  induction d with
  | nil => simp [dictInsert, keysNodup]
  | cons p rest ih =>
    obtain ⟨k1, v1⟩ := p
    simp only [keysNodup, List.map_cons, List.nodup_cons] at h
    by_cases h1 : k1 = k
    · subst h1
      have e : dictInsert ((k1, v1) :: rest) k1 v = (k1, v) :: rest := by
        simp [dictInsert]
      rw [e]
      simp only [keysNodup, List.map_cons, List.nodup_cons]
      exact h
    · simp only [keysNodup, dictInsert, if_neg h1, List.map_cons, List.nodup_cons]
      refine ⟨fun hm => ?_, ih h.2⟩
      rcases (mem_keys_insert rest k k1 v).mp hm with hm' | hm'
      · exact h.1 hm'
      · exact h1 hm'

theorem dictErase_sublist {α : Type} (d : List (String × α)) (k : String) :
    List.Sublist (dictErase d k) d := by
  induction d with
  | nil => simp [dictErase]
  | cons p rest ih =>
    obtain ⟨k1, v1⟩ := p
    by_cases h1 : k1 = k
    · rw [dictErase, if_pos h1]
      exact List.sublist_cons_self _ _
    · rw [dictErase, if_neg h1]
      exact List.Sublist.cons₂ _ ih

theorem keysNodup_erase {α : Type} (d : List (String × α)) (k : String)
    (h : keysNodup d) : keysNodup (dictErase d k) :=
  List.Nodup.sublist (List.Sublist.map Prod.fst (dictErase_sublist d k)) h

theorem take_append_take {α : Type} (a b : List α) (n : Nat) :
    (a ++ b.take n).take n = (a ++ b).take n := by
  rw [List.take_append_eq_append_take, List.take_append_eq_append_take,
    List.take_take, Nat.min_eq_left (Nat.sub_le n a.length)]

theorem rtake_append_rtake {α : Type} (y z : List α) (n : Nat) :
    (y.rtake n ++ z).rtake n = (y ++ z).rtake n := by
  rw [List.rtake_eq_reverse_take_reverse (y.rtake n ++ z) n,
    List.rtake_eq_reverse_take_reverse (y ++ z) n,
    List.rtake_eq_reverse_take_reverse y n,
    List.reverse_append, List.reverse_append, List.reverse_reverse,
    take_append_take]

theorem rtake_length_le {α : Type} (l : List α) (n : Nat) :
    (l.rtake n).length ≤ n := by
  rw [List.rtake]
  rw [List.length_drop]
  omega

theorem rtake_of_length_le {α : Type} (l : List α) (n : Nat) (h : l.length ≤ n) :
    l.rtake n = l := by
  rw [List.rtake, Nat.sub_eq_zero_of_le h, List.drop_zero]

theorem get_add_to_history (h : List (String × List String)) (tid c : String) :
    get_command_history (add_to_history h tid c) tid =
      (get_command_history h tid ++ [c]).rtake 50 := by
  rw [add_to_history, get_command_history, dictGet_insert_self, Option.getD_some]
  by_cases hl : ((dictGet h tid).getD [] ++ [c]).length > 50
  · rw [if_pos hl, get_command_history, List.rtake]
  · rw [if_neg hl, get_command_history]
    rw [rtake_of_length_le _ _ (by omega)]

theorem history_fold (tid : String) (cmds : List String) :
    ∀ (h : List (String × List String)), (get_command_history h tid).length ≤ 50 →
    get_command_history (cmds.foldl (fun hh c => add_to_history hh tid c) h) tid =
      (get_command_history h tid ++ cmds).rtake 50 := by
  induction cmds with
  | nil =>
    intro h hle
    rw [List.foldl_nil, List.append_nil, rtake_of_length_le _ _ hle]
  | cons c cs ih =>
    intro h hle
    rw [List.foldl_cons]
    rw [ih (add_to_history h tid c)
      (by rw [get_add_to_history]; exact rtake_length_le _ _)]
    rw [get_add_to_history, rtake_append_rtake]
    rw [List.append_assoc, List.singleton_append]

theorem gat_preserves_aliases (d : TerminalDiscovery) (a : Adapters) (now : Nat)
    (f : Bool) :
    ((get_available_terminals d a now f).2.1).user_aliases = d.user_aliases := by
  rw [get_available_terminals]
  split <;> rfl

theorem gat_preserves_interval (d : TerminalDiscovery) (a : Adapters) (now : Nat)
    (f : Bool) :
    ((get_available_terminals d a now f).2.1).discovery_interval =
      d.discovery_interval := by
  rw [get_available_terminals]
  split <;> rfl

theorem cache_hit (d : TerminalDiscovery) (a : Adapters) (now : Nat)
    (h : now - d.last_discovery < d.discovery_interval) :
    get_available_terminals d a now false =
      (d.cached_terminals.map Prod.snd, d, 0) := by
  rw [get_available_terminals, if_pos ⟨rfl, h⟩]

theorem gat_refresh_calls (d : TerminalDiscovery) (a : Adapters) (now : Nat) :
    (get_available_terminals d a now true).2.2 = 4 := by
  rw [get_available_terminals, if_neg (by simp)]

theorem aliasInj_erase (m : List (String × String)) (k0 : String)
    (hk : keysNodup m) (hinj : aliasInj m) : aliasInj (dictErase m k0) := by
  intro k1 k2 v g1 g2
  by_cases e1 : k1 = k0
  · subst e1
    rw [dictGet_erase_self m k1 hk] at g1
    exact absurd g1 (by simp)
  · by_cases e2 : k2 = k0
    · subst e2
      rw [dictGet_erase_self m k2 hk] at g2
      exact absurd g2 (by simp)
    · rw [dictGet_erase_ne m k0 k1 e1] at g1
      rw [dictGet_erase_ne m k0 k2 e2] at g2
      exact hinj k1 k2 v g1 g2

theorem evictAliasOf_keysNodup (m : List (String × String)) (id' : String)
    (hk : keysNodup m) : keysNodup (evictAliasOf m id') := by
  rw [evictAliasOf]
  cases m.find? (fun p => p.2 = id') with
  | none => exact hk
  | some p => exact keysNodup_erase m p.1 hk

theorem evictAliasOf_inj (m : List (String × String)) (id' : String)
    (hk : keysNodup m) (hinj : aliasInj m) : aliasInj (evictAliasOf m id') := by
  rw [evictAliasOf]
  cases m.find? (fun p => p.2 = id') with
  | none => exact hinj
  | some p => exact aliasInj_erase m p.1 hk hinj

theorem evictAliasOf_no_value (m : List (String × String)) (id' : String)
    (hk : keysNodup m) (hinj : aliasInj m) :
    ∀ k, dictGet (evictAliasOf m id') k ≠ some id' := by
  intro k
  rw [evictAliasOf]
  cases hf : m.find? (fun p => p.2 = id') with
  | none =>
    intro hget
    have hmem : (k, id') ∈ m := dictGet_mem m k id' hget
    have := List.find?_eq_none.mp hf (k, id') hmem
    simp at this
  | some p =>
    have hmem : p ∈ m := List.mem_of_find?_eq_some hf
    have hp2 : p.2 = id' := by
      have := List.find?_some hf
      simpa using this
    by_cases e : k = p.1
    · subst e
      rw [dictGet_erase_self m p.1 hk]
      simp
    · rw [dictGet_erase_ne m p.1 k e]
      intro hget
      have hpget : dictGet m p.1 = some id' := by
        have : (p.1, p.2) ∈ m := by simpa using hmem
        rw [← hp2]
        exact mem_dictGet m p.1 p.2 hk this
      exact e (hinj k p.1 id' hget hpget)

theorem aliasInj_insert_fresh (m : List (String × String)) (k v : String)
    (hinj : aliasInj m) (hfresh : ∀ k', dictGet m k' ≠ some v) :
    aliasInj (dictInsert m k v) := by
  intro k1 k2 v' g1 g2
  by_cases hv : v' = v
  · rw [hv] at g1 g2
    have e1 : k1 = k := by
      by_contra hne
      rw [dictGet_insert_ne m k k1 v hne] at g1
      exact hfresh k1 g1
    have e2 : k2 = k := by
      by_contra hne
      rw [dictGet_insert_ne m k k2 v hne] at g2
      exact hfresh k2 g2
    rw [e1, e2]
  · have e1 : k1 ≠ k := by
      intro he
      subst he
      rw [dictGet_insert_self] at g1
      exact hv (by injection g1 with h2; exact h2.symm)
    have e2 : k2 ≠ k := by
      intro he
      subst he
      rw [dictGet_insert_self] at g2
      exact hv (by injection g2 with h2; exact h2.symm)
    rw [dictGet_insert_ne m k k1 v e1] at g1
    rw [dictGet_insert_ne m k k2 v e2] at g2
    exact hinj k1 k2 v' g1 g2

theorem setAlias_success_lookup (d : TerminalDiscovery) (a : Adapters)
    (now : Nat) (id' al : String)
    (h : (set_terminal_alias d a now id' al).1 = true) :
    dictGet (set_terminal_alias d a now id' al).2.user_aliases (strLower al) =
      some id' := by
  rw [set_terminal_alias] at h ⊢
  by_cases hc : ((get_available_terminals d a now false).1.any
      (fun t => t.window.id = id')) = true
  · rw [if_pos hc]
    exact dictGet_insert_self _ _ _
  · rw [if_neg hc] at h
    simp at h

/-- C2: for every registry state, a second `get_available_terminals` call
with `force_refresh = false` within the refresh interval of a first call
issues zero adapter calls and returns the cached list unchanged (whatever
the adapters would now report); a call with `force_refresh = true` always
issues (four) adapter calls regardless of cache age; the default refresh
interval is 5 seconds. -/
theorem cache_freshness_spec :
    (∀ (d : TerminalDiscovery) (a b : Adapters) (t0 t1 : Nat),
      t1 - ((get_available_terminals d a t0 false).2.1).last_discovery <
        ((get_available_terminals d a t0 false).2.1).discovery_interval →
      get_available_terminals ((get_available_terminals d a t0 false).2.1) b t1
          false =
        (((get_available_terminals d a t0 false).2.1).cached_terminals.map
           Prod.snd,
         (get_available_terminals d a t0 false).2.1, 0))
    ∧ (∀ (d : TerminalDiscovery) (a : Adapters) (now : Nat),
        (get_available_terminals d a now true).2.2 = 4 ∧
        0 < (get_available_terminals d a now true).2.2)
    ∧ initDiscovery.discovery_interval = 5 := by
  refine ⟨fun d a b t0 t1 h => cache_hit _ b t1 h,
    fun d a now => ?_, rfl⟩
  rw [gat_refresh_calls]
  omega

theorem cache_freshness_witness :
    (0 - ((get_available_terminals initDiscovery a0 0 false).2.1).last_discovery <
      ((get_available_terminals initDiscovery a0 0 false).2.1).discovery_interval)
    ∧ get_available_terminals
        ((get_available_terminals initDiscovery a0 0 false).2.1) a0 0 false =
      (((get_available_terminals initDiscovery a0 0 false).2.1).cached_terminals.map
         Prod.snd,
       (get_available_terminals initDiscovery a0 0 false).2.1, 0) :=
  ⟨by decide, cache_freshness_spec.1 initDiscovery a0 a0 0 0 (by decide)⟩

/-- C6: per-id histories are bounded by 50: a single `add_to_history` never
leaves more than 50 entries, and after 60 dispatches to one id the stored
history is exactly the 50 most recent commands in dispatch order (the
defensive copy of `get_command_history` is the `.copy()` in the source,
rendered here by value semantics). -/
theorem history_bound_spec (tid : String) (cmds : List String)
    (h60 : cmds.length = 60) :
    get_command_history (cmds.foldl (fun hh c => add_to_history hh tid c) []) tid =
      cmds.drop 10
    ∧ ∀ (h : List (String × List String)) (c : String),
        (get_command_history (add_to_history h tid c) tid).length ≤ 50 := by
  constructor
  · rw [history_fold tid cmds [] (by simp [get_command_history, dictGet])]
    have e : get_command_history [] tid = [] := rfl
    rw [e, List.nil_append, List.rtake, h60]
  · intro h c
    rw [get_add_to_history]
    exact rtake_length_le _ _

theorem history_bound_witness :
    (List.replicate 60 "make test").length = 60 ∧
    get_command_history
        ((List.replicate 60 "make test").foldl
          (fun hh c => add_to_history hh "T:1" c) []) "T:1" =
      (List.replicate 60 "make test").drop 10 :=
  ⟨by simp, (history_bound_spec "T:1" (List.replicate 60 "make test")
    (by simp)).1⟩

/-- C3: `validate_command` reports unsafe exactly when the lowercased
command contains a fixed-denylist substring, or the target is remote and it
contains a looser-denylist substring; in particular
"sudo rm -rf /tmp" on a remote target is unsafe and "ls -la" on a local
target is safe. -/
theorem validate_command_spec :
    (∀ (command : String) (w : TerminalWindow),
      ((validate_command command w).1 = false ↔
        ((∃ p ∈ dangerous_patterns, strContains (strLower command) p = true) ∨
         (is_remote w = true ∧
          ∃ p ∈ remote_warning_patterns, strContains (strLower command) p = true))))
    ∧ (validate_command "sudo rm -rf /tmp" remoteSample).1 = false
    ∧ (validate_command "ls -la" localSample).1 = true := by
  refine ⟨fun command w => ?_, by decide, by decide⟩
  rw [validate_command]
  cases hf : dangerous_patterns.find? (fun p => strContains (strLower command) p) with
  | some p =>
    constructor
    · intro _
      exact Or.inl ⟨p, List.mem_of_find?_eq_some hf, List.find?_some hf⟩
    · intro _
      rfl
  | none =>
    have hnone : ∀ p ∈ dangerous_patterns, ¬ strContains (strLower command) p = true :=
      fun p hp => by simpa using List.find?_eq_none.mp hf p hp
    by_cases hr : is_remote w = true
    · rw [if_pos hr]
      cases hf2 : remote_warning_patterns.find?
          (fun p => strContains (strLower command) p) with
      | some p =>
        constructor
        · intro _
          exact Or.inr ⟨hr, p, List.mem_of_find?_eq_some hf2, List.find?_some hf2⟩
        · intro _
          rfl
      | none =>
        have hnone2 : ∀ p ∈ remote_warning_patterns,
            ¬ strContains (strLower command) p = true :=
          fun p hp => by simpa using List.find?_eq_none.mp hf2 p hp
        constructor
        · intro hfalse
          exact absurd hfalse (by simp)
        · intro hor
          rcases hor with ⟨p, hp, hc⟩ | ⟨_, p, hp, hc⟩
          · exact absurd hc (hnone p hp)
          · exact absurd hc (hnone2 p hp)
    · rw [if_neg hr]
      constructor
      · intro hfalse
        exact absurd hfalse (by simp)
      · intro hor
        rcases hor with ⟨p, hp, hc⟩ | ⟨hrr, _⟩
        · exact absurd hc (hnone p hp)
        · exact absurd hrr hr

/-- C5: the alias table stays injective in both directions —
`set_terminal_alias` preserves key-uniqueness and value-injectivity; after
aliasing id1 as "x" and then id2 as "x", alias "x" resolves to id2 alone;
and an unknown id makes it return false leaving the alias table
untouched. -/
theorem alias_uniqueness_spec :
    (∀ (d : TerminalDiscovery) (a : Adapters) (t1 t2 : Nat) (id1 id2 al : String),
      (set_terminal_alias (set_terminal_alias d a t1 id1 al).2 a t2 id2 al).1 =
        true →
      dictGet (set_terminal_alias (set_terminal_alias d a t1 id1 al).2 a t2 id2
          al).2.user_aliases (strLower al) = some id2)
    ∧ (∀ (d : TerminalDiscovery) (a : Adapters) (now : Nat) (id' al : String),
        keysNodup d.user_aliases → aliasInj d.user_aliases →
        keysNodup (set_terminal_alias d a now id' al).2.user_aliases ∧
        aliasInj (set_terminal_alias d a now id' al).2.user_aliases)
    ∧ (∀ (d : TerminalDiscovery) (a : Adapters) (now : Nat) (id' al : String),
        (∀ t ∈ (get_available_terminals d a now false).1, t.window.id ≠ id') →
        (set_terminal_alias d a now id' al).1 = false ∧
        (set_terminal_alias d a now id' al).2.user_aliases = d.user_aliases) := by
  refine ⟨fun d a t1 t2 id1 id2 al h =>
    setAlias_success_lookup _ _ _ _ _ h, ?_, ?_⟩
  · intro d a now id' al hk hinj
    have hal : ((get_available_terminals d a now false).2.1).user_aliases =
        d.user_aliases := gat_preserves_aliases d a now false
    rw [set_terminal_alias]
    by_cases hc : ((get_available_terminals d a now false).1.any
        (fun t => t.window.id = id')) = true
    · rw [if_pos hc]
      simp only [hal]
      exact ⟨keysNodup_insert _ _ _ (evictAliasOf_keysNodup _ _ hk),
        aliasInj_insert_fresh _ _ _ (evictAliasOf_inj _ _ hk hinj)
          (evictAliasOf_no_value _ _ hk hinj)⟩
    · rw [if_neg hc]
      rw [hal]
      exact ⟨hk, hinj⟩
  · intro d a now id' al habs
    have hc : ((get_available_terminals d a now false).1.any
        (fun t => t.window.id = id')) = false := by
      rw [List.any_eq_false]
      intro t ht
      simpa using habs t ht
    rw [set_terminal_alias, if_neg (by rw [hc]; simp)]
    exact ⟨rfl, gat_preserves_aliases d a now false⟩

theorem alias_uniqueness_witness :
    (set_terminal_alias (set_terminal_alias dTwo a0 0 "A:1" "x").2 a0 0 "B:1"
        "x").1 = true ∧
    dictGet (set_terminal_alias (set_terminal_alias dTwo a0 0 "A:1" "x").2 a0 0
        "B:1" "x").2.user_aliases (strLower "x") = some "B:1" :=
  ⟨by decide, alias_uniqueness_spec.1 dTwo a0 0 0 "A:1" "B:1" "x" (by decide)⟩

/-- C7: when the stored current target id is absent from the live terminal
list, `get_current_target` returns the local sentinel and resets the stored
target to local — a silent, total fallback rather than an error. -/
theorem stale_target_fallback (r : CommandRouter) (a : Adapters) (now : Nat)
    (habs : ∀ t ∈ (get_available_terminals r.discovery a now false).1,
      t.window.id ≠ r.current_target) :
    (get_current_target r a now).1 = localTarget ∧
    (get_current_target r a now).2.current_target = "local" := by
  rw [get_current_target]
  by_cases hc : r.current_target = "local"
  · rw [if_pos hc]
    exact ⟨rfl, hc⟩
  · rw [if_neg hc]
    have hfind : (get_available_terminals r.discovery a now false).1.find?
        (fun t => t.window.id = r.current_target) = none := by
      rw [List.find?_eq_none]
      intro t ht
      simpa using habs t ht
    simp only [hfind]
    exact ⟨by trivial, by trivial⟩

theorem stale_target_witness :
    (∀ t ∈ (get_available_terminals rStale.discovery a0 0 false).1,
      t.window.id ≠ rStale.current_target) ∧
    (get_current_target rStale a0 0).1 = localTarget ∧
    (get_current_target rStale a0 0).2.current_target = "local" :=
  ⟨by decide, stale_target_fallback rStale a0 0 (by decide)⟩

/-- C9: with no explicit target and the current target local,
`route_command` returns the distinguished "Use local execution" result with
the router unchanged and zero adapter dispatch calls. -/
theorem local_signal (r : CommandRouter) (a : Adapters) (env : SendEnv)
    (now : Nat) (command : String) (hloc : r.current_target = "local") :
    route_command r a env now command none =
      ((false, "Use local execution"), r, 0) := by
  obtain ⟨disc, cur, hist⟩ := r
  simp only [CommandRouter.current_target] at hloc
  subst hloc
  rfl

theorem local_signal_witness :
    initRouter.current_target = "local" ∧
    route_command initRouter a0 envOk 0 "ls" none =
      ((false, "Use local execution"), initRouter, 0) :=
  ⟨rfl, local_signal initRouter a0 envOk 0 "ls" rfl⟩

/-- C10: a target name that is neither a local synonym nor resolvable by
the registry makes `set_target` return false and leaves the current target
unchanged. -/
theorem set_target_unknown (r : CommandRouter) (a : Adapters) (now : Nat)
    (name : String)
    (hsyn : ¬(strLower name = "local" ∨ strLower name = "current" ∨
      strLower name = "here"))
    (hres : (get_terminal_by_name r.discovery a now name).1 = none) :
    (set_target r a now name).1 = false ∧
    (set_target r a now name).2.current_target = r.current_target := by
  rw [set_target, if_neg hsyn]
  simp only [hres]
  exact ⟨by trivial, by trivial⟩

theorem set_target_unknown_witness :
    (¬(strLower "ghost" = "local" ∨ strLower "ghost" = "current" ∨
      strLower "ghost" = "here")) ∧
    (get_terminal_by_name initRouter.discovery a0 0 "ghost").1 = none ∧
    (set_target initRouter a0 0 "ghost").1 = false ∧
    (set_target initRouter a0 0 "ghost").2.current_target =
      initRouter.current_target := by
  have h := set_target_unknown initRouter a0 0 "ghost" (by decide) (by decide)
  exact ⟨by decide, by decide, h.1, h.2⟩

/-- C4 counterexample: the fuzzy step of `get_terminal_by_name` is not the
scored rule the claim states.  With candidates discovered in the order
[wContain, wExact] and query "beta - run", the source returns the
first-discovered window whose display name merely contains the query
(score 60), while the spec's scored rule picks the exactly-matching window
(score 100). -/
theorem fuzzy_first_match_not_scored :
    (get_available_terminals dFuzzy a0 0 false).1 =
      [mkInfo wContain, mkInfo wExact] ∧
    (get_terminal_by_name dFuzzy a0 0 "beta - run").1 =
      some (mkInfo wContain) ∧
    specScoredFuzzy [mkInfo wContain, mkInfo wExact] "beta - run" =
      some (mkInfo wExact) ∧
    ¬ mkInfo wContain = mkInfo wExact :=
  ⟨by decide, by decide, by decide, by decide⟩

/-- C4 (amended): `get_terminal_by_name` applies resolution rules in
order with first match winning — exact alias first (an alias hit resolves
through the cache no matter what the id or fuzzy steps would match, so an
alias always beats a substring-title match), then exact id (an id hit wins
whenever the alias lookup missed, no matter what the fuzzy step would
match), then a fuzzy step returning the *first-discovered* candidate
matching `fuzzyPred` (containment in display or app name, or display-name
start) — not a score-ranked choice; the scored ranking exists only in
`get_terminal_suggestions`. -/
theorem name_resolution_precedence (d : TerminalDiscovery) (a : Adapters)
    (now : Nat) (name : String) :
    (∀ tid, dictGet d.user_aliases (strLower name) = some tid →
      (get_terminal_by_name d a now name).1 =
        dictGet ((get_available_terminals d a now false).2.1).cached_terminals
          tid)
    ∧ (∀ t, dictGet d.user_aliases (strLower name) = none →
        (get_available_terminals d a now false).1.find?
          (fun u => strLower u.window.id = strLower name) = some t →
        (get_terminal_by_name d a now name).1 = some t)
    ∧ (∀ t, dictGet d.user_aliases (strLower name) = none →
        (get_available_terminals d a now false).1.find?
          (fun u => strLower u.window.id = strLower name) = none →
        (get_available_terminals d a now false).1.find? (fuzzyPred name) =
          some t →
        (get_terminal_by_name d a now name).1 = some t) := by
  have htrans : ((get_available_terminals d a now false).2.1).user_aliases =
      d.user_aliases := gat_preserves_aliases d a now false
  refine ⟨?_, ?_, ?_⟩
  · intro tid halias
    rw [get_terminal_by_name, htrans]
    simp only [halias]
  · intro t halias hid
    rw [get_terminal_by_name, htrans]
    simp only [halias, hid]
  · intro t halias hid hfuzzy
    rw [get_terminal_by_name, htrans]
    simp only [halias, hid, hfuzzy]

theorem name_resolution_precedence_witness :
    dictGet dPrec.user_aliases (strLower "a") = some "B:1" ∧
    dictGet ((get_available_terminals dPrec a0 0 false).2.1).cached_terminals
      "B:1" = some (mkInfo wAliased) ∧
    (get_terminal_by_name dPrec a0 0 "a").1 =
      dictGet ((get_available_terminals dPrec a0 0 false).2.1).cached_terminals
        "B:1" ∧
    dictGet dTwo.user_aliases (strLower "b:1") = none ∧
    (get_terminal_by_name dTwo a0 0 "b:1").1 = some (mkInfo wTwo) :=
  ⟨by decide, by decide,
   (name_resolution_precedence dPrec a0 0 "a").1 "B:1" (by decide),
   by decide,
   (name_resolution_precedence dTwo a0 0 "b:1").2.1 (mkInfo wTwo) (by decide)
     (by decide)⟩

/-- C8 counterexample: the static synonym table is consulted only for the
"in" form.  With an empty registry, "in vs code, ls" resolves via the table
to the VS Code id, but "on vs code, ls" — same target phrase, same table
entry — returns `(none, originalQuery)`, contradicting the claim that the
grammar `("in"|"on") <target>, <command>` resolves the target phrase
against the synonym table in both forms. -/
theorem contextual_on_ignores_synonyms :
    (parse_contextual_command initRouter a0 0 "on vs code, ls").1 =
      (none, "on vs code, ls") ∧
    dictGet target_aliases "vs code" = some "VSCode:integrated" ∧
    (parse_contextual_command initRouter a0 0 "in vs code, ls").1 =
      (some "VSCode:integrated", "ls") :=
  ⟨by decide, by decide, by decide⟩

/-- C8 (amended): the contextual grammar, for every query string: writing
`ql` for the lowercased stripped query, a query of the "in" form with a
comma resolves its target phrase first against known targets (returning the
resolved id and the command phrase), then against the static synonym table,
and returns `(none, originalQuery)` when both miss; a query of the "on"
form resolves only against known targets — the synonym table is not
consulted — and returns `(none, originalQuery)` on a miss; a query without
a comma, or matching neither form, is returned unchanged with no target. -/
theorem contextual_grammar_amended (r : CommandRouter) (a : Adapters)
    (now : Nat) (query : String) :
    (startsWithStr (strTrim (strLower query)) "in " = true →
      ∀ tp cp, splitTargetCmd (strTrim (strLower query)) = some (tp, cp) →
        (∀ t, (get_terminal_by_name r.discovery a now tp).1 = some t →
          (parse_contextual_command r a now query).1 =
            (some t.window.id, cp)) ∧
        ((get_terminal_by_name r.discovery a now tp).1 = none →
          ∀ tid, dictGet target_aliases tp = some tid →
            (parse_contextual_command r a now query).1 = (some tid, cp)) ∧
        ((get_terminal_by_name r.discovery a now tp).1 = none →
          dictGet target_aliases tp = none →
          (parse_contextual_command r a now query).1 = (none, query)))
    ∧ (startsWithStr (strTrim (strLower query)) "in " = false →
       startsWithStr (strTrim (strLower query)) "on " = true →
       ∀ tp cp, splitTargetCmd (strTrim (strLower query)) = some (tp, cp) →
        (∀ t, (get_terminal_by_name r.discovery a now tp).1 = some t →
          (parse_contextual_command r a now query).1 =
            (some t.window.id, cp)) ∧
        ((get_terminal_by_name r.discovery a now tp).1 = none →
          (parse_contextual_command r a now query).1 = (none, query)))
    ∧ (splitTargetCmd (strTrim (strLower query)) = none →
       (parse_contextual_command r a now query).1 = (none, query))
    ∧ (startsWithStr (strTrim (strLower query)) "in " = false →
       startsWithStr (strTrim (strLower query)) "on " = false →
       (parse_contextual_command r a now query).1 = (none, query)) := by
  refine ⟨?_, ?_, ?_, ?_⟩
  · intro hin tp cp hsplit
    refine ⟨?_, ?_, ?_⟩
    · intro t hgtb
      simp [parse_contextual_command, hin, hsplit, hgtb]
    · intro hgtb tid htable
      simp [parse_contextual_command, hin, hsplit, hgtb, htable]
    · intro hgtb htable
      simp [parse_contextual_command, hin, hsplit, hgtb, htable]
  · intro hin hon tp cp hsplit
    refine ⟨?_, ?_⟩
    · intro t hgtb
      simp [parse_contextual_command, hin, hon, hsplit, hgtb]
    · intro hgtb
      simp [parse_contextual_command, hin, hon, hsplit, hgtb]
  · intro hsplit
    by_cases hin : startsWithStr (strTrim (strLower query)) "in " = true
    · simp [parse_contextual_command, hin, hsplit]
    · have hin' : startsWithStr (strTrim (strLower query)) "in " = false :=
        Bool.not_eq_true _ ▸ eq_false_of_ne_true hin
      by_cases hon : startsWithStr (strTrim (strLower query)) "on " = true
      · simp [parse_contextual_command, hin', hon, hsplit]
      · have hon' : startsWithStr (strTrim (strLower query)) "on " = false :=
          Bool.not_eq_true _ ▸ eq_false_of_ne_true hon
        simp [parse_contextual_command, hin', hon']
  · intro hin hon
    simp [parse_contextual_command, hin, hon]

theorem contextual_grammar_witness :
    splitTargetCmd (strTrim (strLower "in a, ls")) = some ("a", "ls") ∧
    (get_terminal_by_name rPrec.discovery a0 0 "a").1 =
      some (mkInfo wAliased) ∧
    (parse_contextual_command rPrec a0 0 "in a, ls").1 = (some "B:1", "ls") ∧
    (get_terminal_by_name initRouter.discovery a0 0 "vs code").1 = none ∧
    (parse_contextual_command initRouter a0 0 "in vs code, ls").1 =
      (some "VSCode:integrated", "ls") ∧
    (parse_contextual_command initRouter a0 0 "on vs code, ls").1 =
      (none, "on vs code, ls") ∧
    (parse_contextual_command initRouter a0 0 "run tests").1 =
      (none, "run tests") := by
  refine ⟨by decide, by decide, ?_, by decide, ?_, ?_, ?_⟩
  · have h := (contextual_grammar_amended rPrec a0 0 "in a, ls").1 (by decide)
      "a" "ls" (by decide)
    exact h.1 (mkInfo wAliased) (by decide)
  · have h := (contextual_grammar_amended initRouter a0 0 "in vs code, ls").1
      (by decide) "vs code" "ls" (by decide)
    exact h.2.1 (by decide) "VSCode:integrated" (by decide)
  · have h := (contextual_grammar_amended initRouter a0 0 "on vs code, ls").2.1
      (by decide) (by decide) "vs code" "ls" (by decide)
    exact h.2 (by decide)
  · exact (contextual_grammar_amended initRouter a0 0 "run tests").2.2.2
      (by decide) (by decide)
